import Mathlib

/-!
Verification development for the numy-app repository.

Part A embeds the three Python scripts under src/scripts
(update_coin_id_metadata.py, validate-pm.py, deploy_tool_versions.py) as
executable Lean definitions over an explicit model of JSON documents and
directory trees: file I/O results are passed in explicitly, and a raised
Python exception is modelled as Except.error.

Part B models the hybrid cache subsystem described by the specification
(fingerprint generation, compression codec, local exact-match backend with
TTL/invalidation and size-budget eviction, backend router, resilience
wrapper).  That subsystem's code is not present under src/, so each of its
definitions is modelled from the spec, as marked in its doc comment.
-/

namespace NumyApp

/-! ## JSON documents (the value space of Python json.load / json.dump) -/

/-- A JSON value, as produced by Python json.load: null, booleans, numbers
(modelled as integers), strings, arrays, and objects as ordered key/value
association lists. -/
inductive Json where
  | null : Json
  | bool (b : Bool) : Json
  | num (n : Int) : Json
  | str (s : String) : Json
  | arr (elems : List Json) : Json
  | obj (fields : List (String × Json)) : Json

/-- First-match lookup of a key in a JSON object's field list
(Python dict indexing; dict keys are unique). -/
def findKey (fields : List (String × Json)) (k : String) : Option Json :=
  match fields with
  | [] => none
  | (k', v) :: rest => if k' = k then some v else findKey rest k

/-- Python dict assignment d[k] = v: replace the existing binding in place,
or append a new binding at the end. -/
def setKey (fields : List (String × Json)) (k : String) (v : Json) :
    List (String × Json) :=
  match fields with
  | [] => [(k, v)]
  | (k', v') :: rest =>
      if k' = k then (k, v) :: rest else (k', v') :: setKey rest k v

/-- Python d.get(k, default): raises AttributeError when d is not a dict. -/
def jsonGetD (data : Json) (k : String) (d : Json) : Except String Json :=
  match data with
  | Json.obj fields => Except.ok ((findKey fields k).getD d)
  | _ => Except.error ("AttributeError: get")

/-- Python d.get(k) with no default: None when the key is absent;
raises AttributeError when d is not a dict. -/
def jsonGet (data : Json) (k : String) : Except String (Option Json) :=
  match data with
  | Json.obj fields => Except.ok (findKey fields k)
  | _ => Except.error ("AttributeError: get")

/-- Python d[k] read indexing: KeyError when absent, TypeError on non-dict. -/
def jsonIndex (data : Json) (k : String) : Except String Json :=
  match data with
  | Json.obj fields =>
      match findKey fields k with
      | some v => Except.ok v
      | none => Except.error ("KeyError")
  | _ => Except.error ("TypeError: not subscriptable")

/-- Python d[k] = v write indexing: TypeError when d is not a dict. -/
def jsonSet (data : Json) (k : String) (v : Json) : Except String Json :=
  match data with
  | Json.obj fields => Except.ok (Json.obj (setKey fields k v))
  | _ => Except.error ("TypeError: assignment")

/-! ## src/scripts/update_coin_id_metadata.py -/

/-- The title written by update_coin_id_metadata.py. -/
def newTitle : String := "Coin ID: AI Scanner & Value"

/-- The subtitle written by update_coin_id_metadata.py. -/
def newSubtitle : String := "Best AI Coin Identification"

/-- The filepath test at line 26 of update_coin_id_metadata.py. -/
def isEnglishLocale (filepath : String) : Bool :=
  filepath.endsWith ("en-US.json") || filepath.endsWith ("en-GB.json") ||
    filepath.endsWith ("en-AU.json") || filepath.endsWith ("en-CA.json")

/-- update_json_file(filepath) from update_coin_id_metadata.py.
The open/json.load step is passed in as readResult (Except.error models a
raised IOError/JSONDecodeError, which the Python propagates: the body has no
try/except).  The returned Json is the document handed to json.dump. -/
def update_json_file (filepath : String) (readResult : Except String Json) :
    Except String Json :=
  match readResult with
  | Except.error e => Except.error e
  | Except.ok data =>
      match jsonGetD data ("title") (Json.str ("")) with
      | Except.error e => Except.error e
      | Except.ok _oldTitle =>
          match jsonGetD data ("subtitle") (Json.str ("")) with
          | Except.error e => Except.error e
          | Except.ok _oldSubtitle =>
              if isEnglishLocale filepath then
                match jsonSet data ("title") (Json.str newTitle) with
                | Except.error e => Except.error e
                | Except.ok data => jsonSet data ("subtitle") (Json.str newSubtitle)
              else
                match jsonSet data ("title") (Json.str newTitle) with
                | Except.error e => Except.error e
                | Except.ok data => jsonSet data ("subtitle") (Json.str newSubtitle)

/-- The body of the store.config.json loop: info["title"] = ...;
info["subtitle"] = ... for one locale's info dict. -/
def updateInfoEntry (info : Json) : Except String Json :=
  match jsonSet info ("title") (Json.str newTitle) with
  | Except.error e => Except.error e
  | Except.ok info => jsonSet info ("subtitle") (Json.str newSubtitle)

/-- The loop over store_config["apple"]["info"].items(), updating every
locale's info dict in place. -/
def updateInfos (infos : List (String × Json)) :
    Except String (List (String × Json)) :=
  match infos with
  | [] => Except.ok []
  | (loc, info) :: rest =>
      match updateInfoEntry info with
      | Except.error e => Except.error e
      | Except.ok info' =>
          match updateInfos rest with
          | Except.error e => Except.error e
          | Except.ok rest' => Except.ok ((loc, info') :: rest')

/-- The store.config.json phase of update_coin_id_metadata.py: index
store_config["apple"]["info"], update every locale's info dict, and return
the document handed to json.dump.  Python mutates the nested dicts in place;
this rebuilds the same document functionally. -/
def update_store_config (config : Json) : Except String Json :=
  match jsonIndex config ("apple") with
  | Except.error e => Except.error e
  | Except.ok apple =>
      match jsonIndex apple ("info") with
      | Except.error e => Except.error e
      | Except.ok (Json.obj infos) =>
          match updateInfos infos with
          | Except.error e => Except.error e
          | Except.ok infos' =>
              match jsonSet apple ("info") (Json.obj infos') with
              | Except.error e => Except.error e
              | Except.ok apple' => jsonSet config ("apple") apple'
      | Except.ok _ => Except.error ("AttributeError: items")

/-- The field overwrite both branches of update_json_file perform, and the
store.config.json loop body performs per locale. -/
def updatedFields (fields : List (String × Json)) : List (String × Json) :=
  setKey (setKey fields ("title") (Json.str newTitle)) ("subtitle")
    (Json.str newSubtitle)

/-! ## Directory trees and os.walk (shared by validate-pm.py and
deploy_tool_versions.py) -/

/-- One file in a directory: its name and, when it is opened and parsed as
JSON, the result (Except.error models an unreadable or unparseable file; the
content is irrelevant for non-JSON files such as lockfiles). -/
structure FileEntry where
  name : String
  content : Except String Json

mutual
/-- A directory: its name, its plain files, and its subdirectories. -/
inductive DirTree where
  | mk (name : String) (files : List FileEntry) (subdirs : Forest)
/-- A list of sibling directories. -/
inductive Forest where
  | nil : Forest
  | cons (t : DirTree) (ts : Forest) : Forest
end

/-- The name of a directory. -/
def DirTree.name : DirTree → String
  | DirTree.mk n _ _ => n

/-- os.path.join for a relative directory and a file/directory name. -/
def joinPath (p f : String) : String := p ++ ("/") ++ f

mutual
/-- os.walk from a given path, with the given directory names pruned from
descent (the dirs[:] / dirs.remove filters in both scripts); yields the
(path, files) pairs top-down, root first. -/
def walkTree (ignored : List String) (path : String) :
    DirTree → List (String × List FileEntry)
  | DirTree.mk _ files subs => (path, files) :: walkForest ignored path subs

/-- os.walk over the (already name-filtered) children of a directory. -/
def walkForest (ignored : List String) (path : String) :
    Forest → List (String × List FileEntry)
  | Forest.nil => []
  | Forest.cons t ts =>
      (if t.name ∈ ignored then []
       else walkTree ignored (joinPath path t.name) t)
        ++ walkForest ignored path ts
end

mutual
/-- The tree with every directory whose name is in the ignore set removed,
recursively: what the walk is claimed never to descend into. -/
def pruneTree (ignored : List String) : DirTree → DirTree
  | DirTree.mk n files subs => DirTree.mk n files (pruneForest ignored subs)

/-- pruneTree on a forest. -/
def pruneForest (ignored : List String) : Forest → Forest
  | Forest.nil => Forest.nil
  | Forest.cons t ts =>
      if t.name ∈ ignored then pruneForest ignored ts
      else Forest.cons (pruneTree ignored t) (pruneForest ignored ts)
end

/-- Python `name in files` for a directory's file list. -/
def hasFile (files : List FileEntry) (n : String) : Bool :=
  files.any (fun f => f.name == n)

/-- The read result of the first file with the given name, if present. -/
def findFile (files : List FileEntry) (n : String) :
    Option (Except String Json) :=
  match files with
  | [] => none
  | f :: rest => if f.name = n then some f.content else findFile rest n

/-! ## src/scripts/validate-pm.py -/

/-- The ignored_dirs set of validate-pm.py. -/
def ignoredDirs : List String :=
  ["node_modules", ".git", ".yarn", "build", "dist", ".next"]

/-- The expected packageManager value. -/
def targetPM : String := "yarn@4.12.0"

/-- Whether the value of the packageManager field compares equal to
'yarn@4.12.0' in Python (pm != 'yarn@4.12.0' is the error condition). -/
def pmOk (pm : Option Json) : Bool :=
  match pm with
  | some (Json.str s) => s == targetPM
  | _ => false

/-- Abbreviated Python repr for the error message (the exact message text is
not load-bearing anywhere). -/
def pmRepr (pm : Option Json) : String :=
  match pm with
  | none => "None"
  | some (Json.str s) => "'" ++ s ++ "'"
  | some _ => "<non-string>"

/-- The package.json check of one walked directory: read error and parse
error raise inside the try block and are caught (appended as errors); a
non-dict document makes data.get raise AttributeError, also caught. -/
def pkgJsonErrors (root : String) (files : List FileEntry) : List String :=
  match findFile files ("package.json") with
  | none => []
  | some content =>
      let pkgPath := joinPath root ("package.json")
      match content with
      | Except.error e => ["Error reading " ++ pkgPath ++ (": ") ++ e]
      | Except.ok data =>
          match jsonGet data ("packageManager") with
          | Except.error e => ["Error reading " ++ pkgPath ++ (": ") ++ e]
          | Except.ok pm =>
              if pmOk pm then []
              else ["Invalid packageManager in " ++ pkgPath ++
                      (": expected 'yarn@4.12.0', found ") ++ pmRepr pm]

/-- All errors collected for one walked directory, in source order:
package-lock.json, pnpm-lock.yaml, then the package.json check. -/
def dirErrors (root : String) (files : List FileEntry) : List String :=
  (if hasFile files ("package-lock.json")
   then ["Forbidden file found: " ++ joinPath root ("package-lock.json")]
   else [])
  ++ (if hasFile files ("pnpm-lock.yaml")
      then ["Forbidden file found: " ++ joinPath root ("pnpm-lock.yaml")]
      else [])
  ++ pkgJsonErrors root files

/-- The success message printed when no errors were collected. -/
def pmSuccessMsg : String :=
  "Package manager validation successful: All projects use yarn@4.12.0 and no forbidden lockfiles found."

/-- check_package_managers() from validate-pm.py over the tree rooted at the
working directory: returns the printed lines and whether it called
sys.exit(1). -/
def check_package_managers (cwd : DirTree) : List String × Bool :=
  let errors := (walkTree ignoredDirs (".") cwd).flatMap (fun p => dirErrors p.1 p.2)
  if errors.isEmpty then (([pmSuccessMsg]), false) else (errors, true)

/-- The packageManager field of a parsed package.json document, as claim C8
reads it: present only when the document is an object carrying the key. -/
def pmField (j : Json) : Option Json :=
  match j with
  | Json.obj fields => findKey fields ("packageManager")
  | _ => none

/-- The package.json part of claim C8's violation predicate: the file
cannot be read or parsed, or its packageManager field is not exactly
yarn@4.12.0 (including absent). -/
def pkgBad : Except String Json → Prop
  | Except.error _ => True
  | Except.ok data => pmField data ≠ some (Json.str targetPM)

/-- Claim C8's violation predicate for one walked directory. -/
def dirViolation (files : List FileEntry) : Prop :=
  hasFile files ("package-lock.json") = true ∨
    hasFile files ("pnpm-lock.yaml") = true ∨
    ∃ content, findFile files ("package.json") = some content ∧ pkgBad content

/-! ## src/scripts/deploy_tool_versions.py -/

/-- The fixed .tool-versions content written by the script. -/
def tool_versions_content : String :=
  "nodejs 25.2.1\nyarn 4.12.0\nruby 3.4.7\njava temurin-17.0.9+9\n"

/-- A flat filesystem view: path to file content. -/
def Fs : Type := String → Option String

/-- create_tool_versions(path): open(path/.tool-versions, 'w') then write,
creating or fully overwriting the file whatever was there before. -/
def create_tool_versions (path : String) (fs : Fs) : Fs :=
  fun q =>
    if q = joinPath path (".tool-versions") then some tool_versions_content
    else fs q

/-- The directory names the deploy script removes from the walk. -/
def deployIgnored : List String := ["node_modules", ".git", ".expo"]

/-- The paths the script writes to, in execution order: the root ".", then
every walked directory whose files include package.json. -/
def deployTargets (cwd : DirTree) : List String :=
  (".") :: ((walkTree deployIgnored (".") cwd).filterMap
    (fun p => if hasFile p.2 ("package.json") then some p.1 else none))

/-- The whole deploy_tool_versions.py script as a filesystem transformer. -/
def deployScript (cwd : DirTree) (fs : Fs) : Fs :=
  (deployTargets cwd).foldl (fun acc p => create_tool_versions p acc) fs

/-! ## Compression codec

Modelled from the spec (§4.5): the cache subsystem's code is not under
src/, so the codec is modelled from the spec's contract: serialize, apply
compression only above a minimum-size threshold, tag the stored blob so
decompress can sniff the format, report ratio = compressedSize/originalSize
with 1.0 meaning "left uncompressed".  The concrete compression algorithm is
a run-length code over the serialized bytes. -/

/-- Run-length encode a byte list into (count, byte) groups. -/
def rleEncode : List Nat → List (Nat × Nat)
  | [] => []
  | b :: rest =>
      match rleEncode rest with
      | [] => [(1, b)]
      | (n, c) :: tail =>
          if c = b then (n + 1, c) :: tail else (1, b) :: (n, c) :: tail

/-- Expand (count, byte) groups back into the byte list. -/
def rleDecode : List (Nat × Nat) → List Nat
  | [] => []
  | (n, c) :: tail => List.replicate n c ++ rleDecode tail

/-- Serialize the groups as a flat byte list. -/
def flattenPairs : List (Nat × Nat) → List Nat
  | [] => []
  | (n, c) :: tail => n :: c :: flattenPairs tail

/-- Parse a flat byte list back into groups; none on corrupt input. -/
def unflattenPairs : List Nat → Option (List (Nat × Nat))
  | [] => some []
  | n :: c :: rest => (unflattenPairs rest).map (fun l => (n, c) :: l)
  | _ => none

/-- Modelled from the spec: compress(value) -> (bytes, ratio).  The value
arrives already serialized as a byte list; compression applies only when the
serialized size exceeds the minimum-size threshold.  The leading byte is the
format tag (0 raw, 1 compressed) that decompress sniffs. -/
def compress (minSize : Nat) (p : List Nat) : List Nat × ℚ :=
  if p.length ≤ minSize then (0 :: p, 1)
  else
    let body := flattenPairs (rleEncode p)
    (1 :: body, (body.length : ℚ) / (p.length : ℚ))

/-- Modelled from the spec: decompress(bytes) -> value, sniffing the format
tag; a decoding error is raised only on genuinely corrupt input. -/
def decompress (blob : List Nat) : Except String (List Nat) :=
  match blob with
  | 0 :: p => Except.ok p
  | 1 :: body =>
      match unflattenPairs body with
      | some pairs => Except.ok (rleDecode pairs)
      | none => Except.error ("corrupt entry")
  | _ => Except.error ("corrupt entry")

/-! ## Fingerprint generator

Modelled from the spec (§4.1, §3): deriveKey and
deriveInvalidationDescriptor over an explicit snapshot of the filesystem /
source-control state and the current time. -/

/-- Operation parameters: an ordered mapping of named values. -/
abbrev Params := List (String × String)

/-- First-match parameter lookup, empty string when absent. -/
def getParam (ps : Params) (k : String) : String :=
  match ps with
  | [] => ""
  | (k', v) :: rest => if k' = k then v else getParam rest k

/-- The filesystem / source-control state a key derivation reads. -/
structure FsState where
  fileMtime : String → Option Nat
  dirMtime : String → Option Nat
  scmRevision : Option String

/-- Modelled from the spec: the fixed allow-list of read-only command
starts cacheable for search/shell kinds (the spec fixes the mechanism, not
the concrete list). -/
def cacheableCommandStarts : List String :=
  ["ls", "cat", "grep", "find", "git status", "git log", "git diff"]

/-- Modelled from the spec: the fixed allow-list of cacheable agent-task
categories (the spec fixes the mechanism, not the concrete list). -/
def cacheableAgentCategories : List String :=
  ["research", "summarize", "analyze"]

/-- The per-minute time bucket (search/shell kinds without a repo). -/
def minuteBucket (now : Nat) : Nat := now / 60

/-- The 30-minute time bucket (remote-fetch/search kinds). -/
def fetchBucket (now : Nat) : Nat := now / 1800

/-- The 1-hour time bucket (agent-task kinds). -/
def agentBucket (now : Nat) : Nat := now / 3600

/-- The time bucket a kind's key derivation reads: the per-minute bucket
for search/shell kinds, the 30-minute bucket for remote-fetch/search
kinds, the 1-hour bucket for agent tasks, and a constant for the kinds
whose keys never read the clock. -/
def kindBucket (kind : String) (now : Nat) : Nat :=
  if kind = ("read_file") then 0
  else if kind = ("list_dir") then 0
  else if kind = ("search") || kind = ("shell_command") then minuteBucket now
  else if kind = ("remote_fetch") || kind = ("remote_search") then
    fetchBucket now
  else if kind = ("agent_task") then agentBucket now
  else 0

/-- A cache key: namespaced by the project identifier and operation kind,
with the canonicalized identifying data in the payload component. -/
structure CacheKey where
  project : String
  kind : String
  payload : String
  deriving DecidableEq, Repr

/-- Modelled from the spec: deriveKey(kind, parameters, context) ->
CacheKey | none, per-kind as in §4.1; none means "not cacheable". -/
def deriveKey (project kind : String) (ps : Params) (fs : FsState)
    (now : Nat) : Option CacheKey :=
  if kind = ("read_file") then
    match fs.fileMtime (getParam ps ("path")) with
    | none => none
    | some m =>
        some ⟨project, kind,
          getParam ps ("path") ++ (":") ++ toString m ++ (":") ++
            getParam ps ("offset") ++ (":") ++ getParam ps ("limit")⟩
  else if kind = ("list_dir") then
    match fs.dirMtime (getParam ps ("dir")) with
    | none => none
    | some m =>
        some ⟨project, kind,
          getParam ps ("pattern") ++ (":") ++ getParam ps ("dir") ++
            (":") ++ toString m⟩
  else if kind = ("search") || kind = ("shell_command") then
    let cmd := getParam ps ("command") ++ getParam ps ("pattern")
    if cacheableCommandStarts.any (fun s => cmd.startsWith s) then
      match fs.scmRevision with
      | some rev => some ⟨project, kind, cmd ++ (":") ++ rev⟩
      | none =>
          some ⟨project, kind, cmd ++ (":") ++ toString (minuteBucket now)⟩
    else none
  else if kind = ("remote_fetch") || kind = ("remote_search") then
    let ident := getParam ps ("url") ++ getParam ps ("query")
    if ident = ("") then none
    else some ⟨project, kind, ident ++ (":") ++ toString (fetchBucket now)⟩
  else if kind = ("agent_task") then
    let cat := getParam ps ("category")
    if cat ∈ cacheableAgentCategories then
      some ⟨project, kind,
        cat ++ (":") ++ getParam ps ("prompt") ++ (":") ++
          toString (agentBucket now)⟩
    else none
  else none

/-- A kind-specific freshness witness. -/
inductive InvDesc where
  | mtime (m : Nat)
  | revision (r : String)
  | bucket (b : Nat)
  deriving DecidableEq, Repr

/-- Modelled from the spec: deriveInvalidationDescriptor(kind, parameters):
file mtime, directory mtime, source-control revision, or time-bucket id,
per kind (§3). -/
def deriveInvDesc (kind : String) (ps : Params) (fs : FsState) (now : Nat) :
    Option InvDesc :=
  if kind = ("read_file") then
    (fs.fileMtime (getParam ps ("path"))).map InvDesc.mtime
  else if kind = ("list_dir") then
    (fs.dirMtime (getParam ps ("dir"))).map InvDesc.mtime
  else if kind = ("search") || kind = ("shell_command") then
    match fs.scmRevision with
    | some r => some (InvDesc.revision r)
    | none => some (InvDesc.bucket (minuteBucket now))
  else if kind = ("remote_fetch") || kind = ("remote_search") then
    some (InvDesc.bucket (fetchBucket now))
  else if kind = ("agent_task") then
    some (InvDesc.bucket (agentBucket now))
  else none

/-! ## Resilience wrapper

Modelled from the spec (§4.7): error containment catches any failure of a
backend operation and substitutes the operation's declared fallback value.
A backend operation's interaction with its fallible environment (disk or
network I/O) is passed in explicitly as an Except value. -/

/-- Modelled from the spec: error containment. -/
def contain {α : Type} (op : Except String α) (fallback : α) : α :=
  match op with
  | Except.ok a => a
  | Except.error _ => fallback

/-! ## Exact-match backend (Local)

Modelled from the spec (§4.2): a key→entry store with TTL and
invalidation-descriptor re-validation on lookup, and a total-size budget
enforced by oldest-first eviction before every write. -/

/-- A stored cache entry (payload kept as the stored, possibly compressed,
blob). -/
structure CacheEntry where
  key : CacheKey
  kind : String
  params : Params
  blob : List Nat
  storedAt : Nat
  invDesc : InvDesc
  compressed : Bool
  compressionRate : ℚ
  deriving DecidableEq, Repr

/-- The result returned to the caller. -/
structure CacheResult where
  hit : Bool
  key : Option CacheKey
  payload : Option (List Nat)
  matchType : String
  similarity : ℚ
  ageSeconds : Nat
  deriving DecidableEq, Repr

/-- The miss result. -/
def missResult : CacheResult :=
  ⟨false, none, none, ("miss"), 0, 0⟩

/-- First entry with the given key. -/
def findEntry : List CacheEntry → CacheKey → Option CacheEntry
  | [], _ => none
  | e :: rest, k => if e.key = k then some e else findEntry rest k

/-- Delete every entry with the given key. -/
def removeEntry : List CacheEntry → CacheKey → List CacheEntry
  | [], _ => []
  | e :: rest, k =>
      if e.key = k then removeEntry rest k else e :: removeEntry rest k

/-- The on-disk size of an entry. -/
def entrySize (e : CacheEntry) : Nat := e.blob.length

/-- The total size of all local entries. -/
def totalSize (st : List CacheEntry) : Nat := (st.map entrySize).sum

/-- Entries sorted oldest-first by stored (file modification) time. -/
def sortByAge (st : List CacheEntry) : List CacheEntry :=
  st.mergeSort (fun a b => a.storedAt ≤ b.storedAt)

/-- Delete entries from the front (the oldest) until the total size is at
most the target. -/
def evictToTarget (target : Nat) : List CacheEntry → List CacheEntry
  | [] => []
  | e :: rest =>
      if totalSize (e :: rest) ≤ target then e :: rest
      else evictToTarget target rest

/-- Modelled from the spec (§4.2 store): before writing, when the total
exceeds the configured ceiling, delete oldest-by-modification-time entries
until usage falls to 80% of budget. -/
def enforceBudget (budget : Nat) (st : List CacheEntry) : List CacheEntry :=
  if budget < totalSize st then evictToTarget (budget * 80 / 100) (sortByAge st)
  else st

/-- Modelled from the spec (§4.2 lookup): derive key; absent ⇒ miss;
expired ⇒ delete and miss; descriptor mismatch ⇒ delete and miss; corrupt
payload ⇒ delete and miss (§4.5); else decompress and exact hit. -/
def localLookupCore (ttl : String → Nat) (project kind : String)
    (ps : Params) (fs : FsState) (now : Nat) (st : List CacheEntry) :
    CacheResult × List CacheEntry :=
  match deriveKey project kind ps fs now with
  | none => (missResult, st)
  | some k =>
      match findEntry st k with
      | none => (missResult, st)
      | some e =>
          if ttl kind ≤ now - e.storedAt then (missResult, removeEntry st k)
          else
            match deriveInvDesc kind ps fs now with
            | none => (missResult, removeEntry st k)
            | some d =>
                if d = e.invDesc then
                  match decompress e.blob with
                  | Except.ok p =>
                      ({ hit := true, key := some k, payload := some p,
                         matchType := ("exact"), similarity := 1,
                         ageSeconds := now - e.storedAt }, st)
                  | Except.error _ => (missResult, removeEntry st k)
                else (missResult, removeEntry st k)

/-- Modelled from the spec (§4.2 store): enforce the budget, serialize and
compress the payload, write the entry, return the key; none when the key
derivation declines. -/
def localStoreCore (minSize budget : Nat) (project kind : String)
    (ps : Params) (fs : FsState) (now : Nat) (payload : List Nat)
    (st : List CacheEntry) : Option CacheKey × List CacheEntry :=
  match deriveKey project kind ps fs now with
  | none => (none, st)
  | some k =>
      match deriveInvDesc kind ps fs now with
      | none => (none, st)
      | some d =>
          let pruned := enforceBudget budget st
          let c := compress minSize payload
          let e : CacheEntry :=
            ⟨k, kind, ps, c.1, now, d, decide (minSize < payload.length), c.2⟩
          (some k, e :: removeEntry pruned k)

/-- The local lookup as exposed: the disk interaction may fail; failures
are contained to (miss, unchanged store). -/
def localLookup (disk : Except String Unit) (ttl : String → Nat)
    (project kind : String) (ps : Params) (fs : FsState) (now : Nat)
    (st : List CacheEntry) : CacheResult × List CacheEntry :=
  contain
    (match disk with
     | Except.error e => Except.error e
     | Except.ok _ => Except.ok (localLookupCore ttl project kind ps fs now st))
    (missResult, st)

/-- The local store as exposed: failures are contained to a silent no-op
(no key, unchanged store). -/
def localStore (disk : Except String Unit) (minSize budget : Nat)
    (project kind : String) (ps : Params) (fs : FsState) (now : Nat)
    (payload : List Nat) (st : List CacheEntry) :
    Option CacheKey × List CacheEntry :=
  contain
    (match disk with
     | Except.error e => Except.error e
     | Except.ok _ =>
         Except.ok (localStoreCore minSize budget project kind ps fs now payload st))
    (none, st)

/-! ## Exact-match backend (Remote)

Modelled from the spec (§4.3): a networked key-value store with native
expiry set at write time; network failures are contained to miss/empty
key. -/

/-- A remote entry with its native expiry time. -/
structure RemoteEntry where
  blob : List Nat
  expiresAt : Nat
  deriving DecidableEq, Repr

/-- First remote value for a key. -/
def remoteFind : List (CacheKey × RemoteEntry) → CacheKey → Option RemoteEntry
  | [], _ => none
  | (k', v) :: rest, k => if k' = k then some v else remoteFind rest k

/-- Modelled from the spec: remote lookup — hit only before the native
expiry. -/
def remoteLookupCore (project kind : String) (ps : Params) (fs : FsState)
    (now : Nat) (st : List (CacheKey × RemoteEntry)) :
    CacheResult × List (CacheKey × RemoteEntry) :=
  match deriveKey project kind ps fs now with
  | none => (missResult, st)
  | some k =>
      match remoteFind st k with
      | none => (missResult, st)
      | some e =>
          if now < e.expiresAt then
            match decompress e.blob with
            | Except.ok p =>
                ({ hit := true, key := some k, payload := some p,
                   matchType := ("exact"), similarity := 1,
                   ageSeconds := 0 }, st)
            | Except.error _ => (missResult, st)
          else (missResult, st)

/-- Modelled from the spec: remote store with TTL delegated to the store's
expiry, set at write time. -/
def remoteStoreCore (minSize : Nat) (ttl : String → Nat)
    (project kind : String) (ps : Params) (fs : FsState) (now : Nat)
    (payload : List Nat) (st : List (CacheKey × RemoteEntry)) :
    Option CacheKey × List (CacheKey × RemoteEntry) :=
  match deriveKey project kind ps fs now with
  | none => (none, st)
  | some k =>
      (some k, (k, ⟨(compress minSize payload).1, now + ttl kind⟩) :: st)

/-! ## Similarity-match backend

Modelled from the spec (§4.4): a vector-indexed store queried by embedding
dot product (the embeddings are unit-normalized, so the dot product is the
cosine similarity), filtered by tenant, operation kind and freshness. -/

/-- A vector record. -/
structure VectorRecord where
  rid : Nat
  embedding : List ℚ
  blob : List Nat
  tenant : String
  kind : String
  storedAt : Nat
  deriving DecidableEq, Repr

/-- Dot product of two equal-length vectors. -/
def dotProduct (v w : List ℚ) : ℚ :=
  (v.zip w).foldl (fun a p => a + p.1 * p.2) 0

/-- Modelled from the spec: the kind-specific query-text template built
from the request's identifying fields. -/
def queryText (kind : String) (ps : Params) : String :=
  kind ++ (" ") ++ getParam ps ("url") ++ getParam ps ("query") ++
    getParam ps ("category") ++ (": ") ++ getParam ps ("prompt")

/-- The best (record, score) among the candidates. -/
def bestMatch (v : List ℚ) : List VectorRecord → Option (VectorRecord × ℚ)
  | [] => none
  | r :: rest =>
      let s := dotProduct v r.embedding
      match bestMatch v rest with
      | none => some (r, s)
      | some (r', s') => if s' ≤ s then some (r, s) else some (r', s')

/-- Modelled from the spec: similarity lookup — embed the query text, query
records restricted to this tenant, kind and freshness window, and return a
semantic hit when the best similarity reaches the threshold. -/
def simLookupCore (embed : String → List ℚ) (threshold : ℚ)
    (ttl : String → Nat) (project kind : String) (ps : Params) (now : Nat)
    (st : List VectorRecord) : CacheResult × List VectorRecord :=
  let v := embed (queryText kind ps)
  let cands := st.filter
    (fun r => r.tenant = project ∧ r.kind = kind ∧ now ≤ r.storedAt + ttl kind)
  match bestMatch v cands with
  | none => (missResult, st)
  | some (r, s) =>
      if threshold ≤ s then
        match decompress r.blob with
        | Except.ok p =>
            ({ hit := true, key := none, payload := some p,
               matchType := ("semantic"), similarity := s,
               ageSeconds := now - r.storedAt }, st)
        | Except.error _ => (missResult, st)
      else (missResult, st)

/-- Modelled from the spec: similarity store — embed the query text and
upsert a new record with a generated unique id, payload compressed above
the size threshold. -/
def simStoreCore (embed : String → List ℚ) (minSize : Nat)
    (project kind : String) (ps : Params) (now : Nat) (payload : List Nat)
    (st : List VectorRecord) : Option CacheKey × List VectorRecord :=
  let v := embed (queryText kind ps)
  (none,
    ⟨st.length, v, (compress minSize payload).1, project, kind, now⟩ :: st)

/-- The remote lookup as exposed: network failures contained to a miss. -/
def remoteLookup (net : Except String Unit) (project kind : String)
    (ps : Params) (fs : FsState) (now : Nat)
    (st : List (CacheKey × RemoteEntry)) :
    CacheResult × List (CacheKey × RemoteEntry) :=
  contain
    (match net with
     | Except.error e => Except.error e
     | Except.ok _ => Except.ok (remoteLookupCore project kind ps fs now st))
    (missResult, st)

/-- The remote store as exposed: network failures contained to an empty
key and unchanged store. -/
def remoteStore (net : Except String Unit) (minSize : Nat)
    (ttl : String → Nat) (project kind : String) (ps : Params)
    (fs : FsState) (now : Nat) (payload : List Nat)
    (st : List (CacheKey × RemoteEntry)) :
    Option CacheKey × List (CacheKey × RemoteEntry) :=
  contain
    (match net with
     | Except.error e => Except.error e
     | Except.ok _ =>
         Except.ok (remoteStoreCore minSize ttl project kind ps fs now payload st))
    (none, st)

/-- The similarity lookup as exposed: an unavailable embedding service or
vector store degrades to always-miss. -/
def simLookup (net : Except String Unit) (embed : String → List ℚ)
    (threshold : ℚ) (ttl : String → Nat) (project kind : String)
    (ps : Params) (now : Nat) (st : List VectorRecord) :
    CacheResult × List VectorRecord :=
  contain
    (match net with
     | Except.error e => Except.error e
     | Except.ok _ =>
         Except.ok (simLookupCore embed threshold ttl project kind ps now st))
    (missResult, st)

/-- The similarity store as exposed: failures degrade to a silent no-op. -/
def simStore (net : Except String Unit) (embed : String → List ℚ)
    (minSize : Nat) (project kind : String) (ps : Params) (now : Nat)
    (payload : List Nat) (st : List VectorRecord) :
    Option CacheKey × List VectorRecord :=
  contain
    (match net with
     | Except.error e => Except.error e
     | Except.ok _ =>
         Except.ok (simStoreCore embed minSize project kind ps now payload st))
    (none, st)

/-! ## Cache router / manager

Modelled from the spec (§4.6): a fixed routing table from operation kind to
the ordered backend list; lookup returns on first hit, store writes every
routed backend and returns the first key obtained; kinds not listed in the
table always miss and are never stored. -/

/-- The three backends. -/
inductive BackendId where
  | localB : BackendId
  | remoteB : BackendId
  | similarityB : BackendId
  deriving DecidableEq, Repr

/-- Modelled from the spec: the fixed routing table. -/
def routingTable : List (String × List BackendId) :=
  [(("read_file"), [BackendId.localB]),
   (("list_dir"), [BackendId.localB]),
   (("search"), [BackendId.localB]),
   (("shell_command"), [BackendId.localB]),
   (("remote_fetch"),
     [BackendId.remoteB, BackendId.similarityB, BackendId.localB]),
   (("remote_search"),
     [BackendId.remoteB, BackendId.similarityB, BackendId.localB]),
   (("agent_task"), [BackendId.similarityB, BackendId.localB])]

/-- The backend list routed for a kind; none for unlisted kinds. -/
def routeFor (kind : String) : Option (List BackendId) :=
  match routingTable.find? (fun p => p.1 == kind) with
  | some p => some p.2
  | none => none

/-- The configuration surface the manager owns. -/
structure CacheConfig where
  ttl : String → Nat
  minSize : Nat
  budget : Nat
  threshold : ℚ
  embed : String → List ℚ

/-- The combined state of the three backends. -/
structure CacheState where
  localSt : List CacheEntry
  remoteSt : List (CacheKey × RemoteEntry)
  simSt : List VectorRecord
  deriving DecidableEq, Repr

/-- Lookup on one backend, threading the combined state. -/
def backendLookup (cfg : CacheConfig) (env : Except String Unit)
    (b : BackendId) (project kind : String) (ps : Params) (fs : FsState)
    (now : Nat) (cs : CacheState) : CacheResult × CacheState :=
  match b with
  | BackendId.localB =>
      let r := localLookup env cfg.ttl project kind ps fs now cs.localSt
      (r.1, { cs with localSt := r.2 })
  | BackendId.remoteB =>
      let r := remoteLookup env project kind ps fs now cs.remoteSt
      (r.1, { cs with remoteSt := r.2 })
  | BackendId.similarityB =>
      let r := simLookup env cfg.embed cfg.threshold cfg.ttl project kind ps
        now cs.simSt
      (r.1, { cs with simSt := r.2 })

/-- Store on one backend, threading the combined state. -/
def backendStore (cfg : CacheConfig) (env : Except String Unit)
    (b : BackendId) (project kind : String) (ps : Params) (fs : FsState)
    (now : Nat) (payload : List Nat) (cs : CacheState) :
    Option CacheKey × CacheState :=
  match b with
  | BackendId.localB =>
      let r := localStore env cfg.minSize cfg.budget project kind ps fs now
        payload cs.localSt
      (r.1, { cs with localSt := r.2 })
  | BackendId.remoteB =>
      let r := remoteStore env cfg.minSize cfg.ttl project kind ps fs now
        payload cs.remoteSt
      (r.1, { cs with remoteSt := r.2 })
  | BackendId.similarityB =>
      let r := simStore env cfg.embed cfg.minSize project kind ps now
        payload cs.simSt
      (r.1, { cs with simSt := r.2 })

/-- Try the routed backends in order, returning the first hit. -/
def tryBackends (cfg : CacheConfig) (env : Except String Unit)
    (project kind : String) (ps : Params) (fs : FsState) (now : Nat) :
    List BackendId → CacheState → CacheResult × CacheState
  | [], cs => (missResult, cs)
  | b :: rest, cs =>
      let r := backendLookup cfg env b project kind ps fs now cs
      if r.1.hit then r
      else tryBackends cfg env project kind ps fs now rest r.2

/-- Write all routed backends, returning the first key obtained. -/
def storeBackends (cfg : CacheConfig) (env : Except String Unit)
    (project kind : String) (ps : Params) (fs : FsState) (now : Nat)
    (payload : List Nat) :
    List BackendId → CacheState → Option CacheKey × CacheState
  | [], cs => (none, cs)
  | b :: rest, cs =>
      let r := backendStore cfg env b project kind ps fs now payload cs
      let r' := storeBackends cfg env project kind ps fs now payload rest r.2
      (r.1 <|> r'.1, r'.2)

/-- Modelled from the spec: Manager lookup delegates to the Router. -/
def managerLookup (cfg : CacheConfig) (env : Except String Unit)
    (project kind : String) (ps : Params) (fs : FsState) (now : Nat)
    (cs : CacheState) : CacheResult × CacheState :=
  match routeFor kind with
  | none => (missResult, cs)
  | some bs => tryBackends cfg env project kind ps fs now bs cs

/-- Modelled from the spec: Manager store delegates to the Router. -/
def managerStore (cfg : CacheConfig) (env : Except String Unit)
    (project kind : String) (ps : Params) (fs : FsState) (now : Nat)
    (payload : List Nat) (cs : CacheState) : Option CacheKey × CacheState :=
  match routeFor kind with
  | none => (none, cs)
  | some bs => storeBackends cfg env project kind ps fs now payload bs cs

/-! ## Lemmas about the compression codec -/

/-- Run-length decoding inverts run-length encoding. -/
theorem rleDecode_rleEncode (p : List Nat) : rleDecode (rleEncode p) = p := by
  induction p with
  | nil => rfl
  | cons b rest ih =>
      rw [rleEncode]
      cases h : rleEncode rest with
      | nil =>
          rw [h] at ih
          simp only [rleDecode] at ih
          simp [rleDecode, ← ih]
      | cons hd tail =>
          obtain ⟨n, c⟩ := hd
          rw [h] at ih
          by_cases hc : c = b
          · subst hc
            simp only [if_pos rfl]
            simp only [rleDecode, List.replicate_succ, List.cons_append] at ih ⊢
            rw [ih]
          · simp only [rleDecode] at ih
            simp [hc, rleDecode, ih]

/-- Parsing the flat serialization recovers the groups. -/
theorem unflattenPairs_flattenPairs (l : List (Nat × Nat)) :
    unflattenPairs (flattenPairs l) = some l := by
  induction l with
  | nil => rfl
  | cons hd tail ih =>
      obtain ⟨n, c⟩ := hd
      simp [flattenPairs, unflattenPairs, ih]

/-- Claim C3: compression round-trip: for every payload P,
decompress(compress(P)) == P; and every input whose serialized size is
below the minimum-size threshold is left uncompressed with ratio 1.0. -/
theorem compress_roundtrip (minSize : Nat) (p : List Nat) :
    decompress (compress minSize p).1 = Except.ok p ∧
      (p.length < minSize → (compress minSize p).2 = 1) := by
  constructor
  · by_cases h : p.length ≤ minSize
    · simp [compress, h, decompress]
    · simp [compress, h, decompress, unflattenPairs_flattenPairs,
        rleDecode_rleEncode]
  · intro h
    simp [compress, Nat.le_of_lt h]

/-- Witness for C3 at threshold 4 with the two-byte payload [1, 2]. -/
theorem compress_roundtrip_witness :
    decompress (compress 4 ([1, 2])).1 = Except.ok ([1, 2]) ∧
      (compress 4 ([1, 2])).2 = 1 :=
  ⟨(compress_roundtrip 4 ([1, 2])).1,
   (compress_roundtrip 4 ([1, 2])).2 (by decide)⟩

/-! ## Lemmas about JSON objects and update_coin_id_metadata.py -/

/-- Looking up the key just set returns the new value. -/
theorem findKey_setKey_same (fields : List (String × Json)) (k : String)
    (v : Json) : findKey (setKey fields k v) k = some v := by
  induction fields with
  | nil => simp [setKey, findKey]
  | cons hd rest ih =>
      obtain ⟨k0, v0⟩ := hd
      by_cases h : k0 = k
      · simp [setKey, h, findKey]
      · simp [setKey, h, findKey, ih]

/-- Setting one key leaves every other key's binding unchanged. -/
theorem findKey_setKey_other (fields : List (String × Json)) (k k' : String)
    (v : Json) (h : k' ≠ k) :
    findKey (setKey fields k v) k' = findKey fields k' := by
  induction fields with
  | nil => simp [setKey, findKey, Ne.symm h]
  | cons hd rest ih =>
      obtain ⟨k0, v0⟩ := hd
      by_cases h0 : k0 = k
      · subst h0
        simp [setKey, findKey, h, Ne.symm h]
      · by_cases h1 : k0 = k'
        · simp [setKey, h0, findKey, h1, h]
        · simp [setKey, h0, findKey, h1, ih]

/-- update_json_file on an object document succeeds and overwrites exactly
title and subtitle. -/
theorem update_json_file_obj (fp : String) (fields : List (String × Json)) :
    update_json_file fp (Except.ok (Json.obj fields)) =
      Except.ok (Json.obj (updatedFields fields)) := by
  simp [update_json_file, jsonGetD, jsonSet, updatedFields]

/-- updateInfoEntry on an object info dict overwrites exactly title and
subtitle. -/
theorem updateInfoEntry_obj (fields : List (String × Json)) :
    updateInfoEntry (Json.obj fields) =
      Except.ok (Json.obj (updatedFields fields)) := by
  simp [updateInfoEntry, jsonSet, updatedFields]

/-- Claim C10: update_json_file writes the same title and subtitle in both
locale branches (the locale test has no observable effect), leaves every
other key unchanged, and the store.config.json loop overwrites exactly the
same two fields for every locale under apple.info. -/
theorem update_metadata_frame :
    (∀ fp1 fp2 rd, update_json_file fp1 rd = update_json_file fp2 rd) ∧
    (∀ fp fields,
      update_json_file fp (Except.ok (Json.obj fields)) =
        Except.ok (Json.obj (updatedFields fields))) ∧
    (∀ fields,
      findKey (updatedFields fields) ("title") = some (Json.str newTitle) ∧
      findKey (updatedFields fields) ("subtitle") = some (Json.str newSubtitle) ∧
      ∀ k, k ≠ ("title") → k ≠ ("subtitle") →
        findKey (updatedFields fields) k = findKey fields k) ∧
    (∀ infos : List (String × List (String × Json)),
      updateInfos (infos.map (fun p => (p.1, Json.obj p.2))) =
        Except.ok (infos.map (fun p => (p.1, Json.obj (updatedFields p.2))))) := by
  refine ⟨?_, update_json_file_obj, ?_, ?_⟩
  · intro fp1 fp2 rd
    cases rd with
    | error e => rfl
    | ok data => simp [update_json_file]
  · intro fields
    refine ⟨?_, findKey_setKey_same _ _ _, ?_⟩
    · rw [updatedFields, findKey_setKey_other _ _ _ _ (by decide)]
      exact findKey_setKey_same _ _ _
    · intro k hkt hks
      rw [updatedFields, findKey_setKey_other _ _ _ _ hks,
        findKey_setKey_other _ _ _ _ hkt]
  · intro infos
    induction infos with
    | nil => rfl
    | cons hd tail ih =>
        obtain ⟨loc, flds⟩ := hd
        simp [updateInfos, updateInfoEntry_obj, ih]

/-- Witness for C10: branch independence on a concrete document, and a
concrete untouched key. -/
theorem update_metadata_frame_witness :
    update_json_file ("locales/en-US.json") (Except.ok (Json.obj [])) =
      update_json_file ("locales/de-DE.json") (Except.ok (Json.obj [])) ∧
    findKey (updatedFields ([(("keywords"), Json.null)])) ("keywords") =
      findKey ([(("keywords"), Json.null)]) ("keywords") :=
  ⟨update_metadata_frame.1 ("locales/en-US.json") ("locales/de-DE.json") _,
   (update_metadata_frame.2.2.1 ([(("keywords"), Json.null)])).2.2 ("keywords")
     (by decide) (by decide)⟩

/-- Counterexample for C1: update_json_file, an entry point of the program,
propagates a JSON parse failure to its caller instead of returning
normally: on an unparseable locale file the json.load failure is re-raised
unchanged. -/
theorem update_json_file_raises :
    update_json_file ("locales/de-DE.json")
        (Except.error ("Expecting value: line 1 column 1 (char 0)")) =
      Except.error ("Expecting value: line 1 column 1 (char 0)") := rfl

/-! ## Lemmas about validate-pm.py -/

/-- pmOk holds exactly when the field value is the string yarn@4.12.0. -/
theorem pmOk_iff (pm : Option Json) :
    pmOk pm = true ↔ pm = some (Json.str targetPM) := by
  cases pm with
  | none => simp [pmOk]
  | some j => cases j <;> simp [pmOk]

/-- The package.json check of one directory collects an error exactly when
claim C8's package.json condition holds. -/
theorem pkgJsonErrors_ne_nil_iff (root : String) (files : List FileEntry) :
    pkgJsonErrors root files ≠ [] ↔
      ∃ content, findFile files ("package.json") = some content ∧
        pkgBad content := by
  cases h : findFile files ("package.json") with
  | none => simp [pkgJsonErrors, h]
  | some content =>
      cases content with
      | error e => simp [pkgJsonErrors, h, pkgBad]
      | ok data =>
          cases data <;>
            simp [pkgJsonErrors, h, pkgBad, jsonGet, pmField, pmOk_iff]

/-- A directory contributes an error exactly when it violates claim C8's
condition. -/
theorem dirErrors_ne_nil_iff (root : String) (files : List FileEntry) :
    dirErrors root files ≠ [] ↔ dirViolation files := by
  unfold dirErrors dirViolation
  by_cases h1 : hasFile files ("package-lock.json") <;>
    by_cases h2 : hasFile files ("pnpm-lock.yaml") <;>
      simp [h1, h2, pkgJsonErrors_ne_nil_iff]

/-- Claim C8: check_package_managers exits with status 1 (after printing
every collected error) iff some directory of the walked tree — with
node_modules, .git, .yarn, build, dist and .next pruned — has a forbidden
lockfile, a package.json whose packageManager field is not exactly
yarn@4.12.0 (including absent), or an unreadable/unparseable package.json;
otherwise it prints the success message and terminates normally. -/
theorem check_package_managers_spec (cwd : DirTree) :
    ((check_package_managers cwd).2 = true ↔
      ∃ p ∈ walkTree ignoredDirs (".") cwd, dirViolation p.2) ∧
    ((check_package_managers cwd).2 = true →
      (check_package_managers cwd).1 =
        (walkTree ignoredDirs (".") cwd).flatMap (fun p => dirErrors p.1 p.2)) ∧
    ((check_package_managers cwd).2 = false →
      (check_package_managers cwd).1 = [pmSuccessMsg]) := by
  have hmain :
      ((walkTree ignoredDirs (".") cwd).flatMap (fun p => dirErrors p.1 p.2))
          = [] ↔
        ¬ ∃ p ∈ walkTree ignoredDirs (".") cwd, dirViolation p.2 := by
    rw [List.flatMap_eq_nil_iff]
    constructor
    · rintro h ⟨p, hp, hv⟩
      exact (dirErrors_ne_nil_iff p.1 p.2).2 hv (h p hp)
    · intro h p hp
      by_contra hne
      exact h ⟨p, hp, (dirErrors_ne_nil_iff p.1 p.2).1 hne⟩
  simp only [check_package_managers]
  by_cases hE :
      ((walkTree ignoredDirs (".") cwd).flatMap (fun p => dirErrors p.1 p.2))
        = []
  · simp [hE]
    intro a b hab hv
    exact hmain.1 hE ⟨(a, b), hab, hv⟩
  · simp [hE, List.isEmpty_iff]
    obtain ⟨⟨a, b⟩, hab, hv⟩ := not_not.1 (fun hcon => hE (hmain.2 hcon))
    exact ⟨a, b, hab, hv⟩

/-- Witness for C8: an empty working directory walks clean, so the script
prints the success message and does not exit with status 1. -/
theorem check_package_managers_spec_witness :
    (check_package_managers (DirTree.mk (".") [] Forest.nil)).1 =
      [pmSuccessMsg] :=
  (check_package_managers_spec (DirTree.mk (".") [] Forest.nil)).2.2 (by rfl)

/-! ## Lemmas about deploy_tool_versions.py -/

/-- Pruning keeps a directory's own name. -/
theorem pruneTree_name (ig : List String) (t : DirTree) :
    (pruneTree ig t).name = t.name := by
  cases t with
  | mk n files subs => rfl

mutual
/-- Walking a tree never looks below an ignored directory: it equals the
walk of the tree with every ignored subtree removed. -/
theorem walkTree_pruneTree (ig : List String) (p : String) :
    ∀ t : DirTree, walkTree ig p (pruneTree ig t) = walkTree ig p t
  | DirTree.mk n files subs => by
      simp only [pruneTree, walkTree]
      rw [walkForest_pruneForest ig p subs]

/-- The forest version of walkTree_pruneTree. -/
theorem walkForest_pruneForest (ig : List String) (p : String) :
    ∀ ts : Forest, walkForest ig p (pruneForest ig ts) = walkForest ig p ts
  | Forest.nil => rfl
  | Forest.cons t ts => by
      by_cases h : t.name ∈ ig
      · rw [pruneForest, if_pos h, walkForest_pruneForest ig p ts]
        simp [walkForest, h]
      · rw [pruneForest, if_neg h, walkForest, walkForest,
          pruneTree_name, if_neg h, if_neg h,
          walkTree_pruneTree ig (joinPath p t.name) t,
          walkForest_pruneForest ig p ts]
end

/-- Folding the per-directory write over a target list writes exactly those
targets' .tool-versions files and leaves every other path untouched. -/
theorem foldl_create_apply (ts : List String) (fs : Fs) (q : String) :
    ts.foldl (fun acc p => create_tool_versions p acc) fs q =
      if ∃ p ∈ ts, q = joinPath p (".tool-versions")
      then some tool_versions_content else fs q := by
  induction ts generalizing fs with
  | nil => simp
  | cons t ts ih =>
      rw [List.foldl_cons, ih]
      by_cases h : ∃ p ∈ ts, q = joinPath p (".tool-versions")
      · simp [h]
      · by_cases hq : q = joinPath t (".tool-versions")
        · simp [create_tool_versions, hq, h]
        · simp [create_tool_versions, hq, h]

/-- Claim C9: create_tool_versions unconditionally writes (creating or
fully overwriting) the fixed four-line content to path/.tool-versions; the
script writes exactly the current directory and the walked directories
containing package.json, never descending into node_modules, .git or .expo
(walking the tree equals walking the tree with those subtrees removed). -/
theorem deploy_tool_versions_spec :
    tool_versions_content =
      ("nodejs 25.2.1\n") ++ ("yarn 4.12.0\n") ++ ("ruby 3.4.7\n") ++
        ("java temurin-17.0.9+9\n") ∧
    (∀ path fs,
      create_tool_versions path fs (joinPath path (".tool-versions")) =
        some tool_versions_content) ∧
    (∀ cwd fs q,
      deployScript cwd fs q =
        if ∃ p ∈ deployTargets cwd, q = joinPath p (".tool-versions")
        then some tool_versions_content else fs q) ∧
    (∀ p cwd, walkTree deployIgnored p cwd =
      walkTree deployIgnored p (pruneTree deployIgnored cwd)) := by
  refine ⟨by rfl, ?_, ?_, ?_⟩
  · intro path fs
    simp [create_tool_versions]
  · intro cwd fs q
    exact foldl_create_apply (deployTargets cwd) fs q
  · intro p cwd
    exact (walkTree_pruneTree deployIgnored p cwd).symm

/-! ## Theorems about the spec-modelled cache subsystem -/

/-- Claim C2: deriveKey is deterministic: with identical operation kind and
parameters, an unchanged filesystem/source-control snapshot and the same
time bucket — the bucket the kind actually reads: per-minute for
search/shell, 30-minute for remote-fetch/search, 1-hour for agent tasks,
none for the rest — it returns the same CacheKey. -/
theorem deriveKey_deterministic (project kind : String) (ps : Params)
    (fs : FsState) (now1 now2 : Nat)
    (h : kindBucket kind now1 = kindBucket kind now2) :
    deriveKey project kind ps fs now1 = deriveKey project kind ps fs now2 := by
  by_cases h1 : kind = ("read_file")
  · subst h1; simp [deriveKey]
  by_cases h2 : kind = ("list_dir")
  · subst h2; simp [deriveKey]
  by_cases h3 : kind = ("search") ∨ kind = ("shell_command")
  · rcases h3 with h3 | h3 <;>
      (subst h3
       have hb : minuteBucket now1 = minuteBucket now2 := by
         simpa [kindBucket] using h
       simp [deriveKey, hb])
  by_cases h4 : kind = ("remote_fetch") ∨ kind = ("remote_search")
  · rcases h4 with h4 | h4 <;>
      (subst h4
       have hb : fetchBucket now1 = fetchBucket now2 := by
         simpa [kindBucket] using h
       simp [deriveKey, hb])
  by_cases h5 : kind = ("agent_task")
  · subst h5
    have hb : agentBucket now1 = agentBucket now2 := by
      simpa [kindBucket] using h
    simp [deriveKey, hb]
  · obtain ⟨h3a, h3b⟩ := not_or.mp h3
    obtain ⟨h4a, h4b⟩ := not_or.mp h4
    simp [deriveKey, h1, h2, h3a, h3b, h4a, h4b, h5]

/-- Witness for C2: two remote_fetch calls at 60s and 1200s lie in
different minutes but in the same 30-minute bucket, and derive the same
key. -/
theorem deriveKey_deterministic_witness :
    deriveKey ("p") ("remote_fetch") ([(("url"), ("https://x"))])
        ⟨fun _ => none, fun _ => none, none⟩ 60 =
      deriveKey ("p") ("remote_fetch") ([(("url"), ("https://x"))])
        ⟨fun _ => none, fun _ => none, none⟩ 1200 :=
  deriveKey_deterministic ("p") ("remote_fetch") ([(("url"), ("https://x"))])
    ⟨fun _ => none, fun _ => none, none⟩ 60 1200 (by decide)

/-- Every derived key carries its project identifier in the project
component. -/
theorem deriveKey_project (project kind : String) (ps : Params)
    (fs : FsState) (now : Nat) (k : CacheKey)
    (h : deriveKey project kind ps fs now = some k) : k.project = project := by
  unfold deriveKey at h
  repeat' split at h
  all_goals (try (dsimp only [] at h); repeat' split at h)
  all_goals (try exact Option.noConfusion h)
  all_goals (injection h with h'; rw [← h'])

/-- No entry whose key differs everywhere is found. -/
theorem findEntry_eq_none (st : List CacheEntry) (k : CacheKey)
    (h : ∀ e ∈ st, e.key ≠ k) : findEntry st k = none := by
  induction st with
  | nil => rfl
  | cons e rest ih =>
      rw [findEntry, if_neg (h e (by simp))]
      exact ih (fun e' he' => h e' (List.mem_cons_of_mem e he'))

/-- Claim C6: project isolation: distinct project identifiers never derive
colliding keys for the same kind and parameters, and a local lookup under
project A never returns an entry stored under project B. -/
theorem project_isolation (p1 p2 kind : String) (ps : Params) (fs : FsState)
    (now : Nat) (hne : p1 ≠ p2) :
    (∀ k1 k2, deriveKey p1 kind ps fs now = some k1 →
      deriveKey p2 kind ps fs now = some k2 → k1 ≠ k2) ∧
    (∀ ttl st, (∀ e ∈ st, e.key.project = p2) →
      (localLookup (Except.ok ()) ttl p1 kind ps fs now st).1.hit = false) := by
  constructor
  · intro k1 k2 h1 h2 heq
    apply hne
    rw [← deriveKey_project p1 kind ps fs now k1 h1,
      ← deriveKey_project p2 kind ps fs now k2 h2, heq]
  · intro ttl st hst
    show (localLookupCore ttl p1 kind ps fs now st).1.hit = false
    unfold localLookupCore
    cases hk : deriveKey p1 kind ps fs now with
    | none => rfl
    | some k =>
        have hnone : findEntry st k = none := by
          apply findEntry_eq_none
          intro e he hcontra
          apply hne
          rw [← hst e he, hcontra, deriveKey_project p1 kind ps fs now k hk]
        simp [hnone, missResult]

/-- Witness for C6: projects a and b with the same remote_fetch parameters
derive distinct keys, and a's lookup misses on a store holding only b's
entry. -/
theorem project_isolation_witness :
    ((⟨("a"), ("remote_fetch"), ("u:0")⟩ : CacheKey) ≠
      ⟨("b"), ("remote_fetch"), ("u:0")⟩) ∧
    (localLookup (Except.ok ()) (fun _ => 10) ("a") ("remote_fetch")
        ([(("url"), ("u"))]) ⟨fun _ => none, fun _ => none, none⟩ 0
        ([⟨⟨("b"), ("remote_fetch"), ("u:0")⟩, ("remote_fetch"), [], [], 0,
          InvDesc.bucket 0, false, 1⟩])).1.hit = false :=
  ⟨(project_isolation ("a") ("b") ("remote_fetch") ([(("url"), ("u"))])
      ⟨fun _ => none, fun _ => none, none⟩ 0 (by decide)).1 _ _ (by rfl) (by rfl),
   (project_isolation ("a") ("b") ("remote_fetch") ([(("url"), ("u"))])
      ⟨fun _ => none, fun _ => none, none⟩ 0 (by decide)).2 (fun _ => 10) _
     (by intro e he; simp at he; rw [he])⟩

/-- Removing a key removes every entry carrying it. -/
theorem findEntry_removeEntry (st : List CacheEntry) (k : CacheKey) :
    findEntry (removeEntry st k) k = none := by
  induction st with
  | nil => rfl
  | cons e rest ih =>
      by_cases h : e.key = k
      · simp [removeEntry, h, ih]
      · simp [removeEntry, h, findEntry, ih]

/-- Claim C4: freshness invariant: a stored entry is returned as a hit only
while its age is strictly below TTL(kind) and its stored invalidation
descriptor still matches the re-derived one; when either check fails, the
lookup deletes the entry and returns a miss. -/
theorem local_freshness (ttl : String → Nat) (project kind : String)
    (ps : Params) (fs : FsState) (now : Nat) (st : List CacheEntry)
    (k : CacheKey) (e : CacheEntry)
    (hk : deriveKey project kind ps fs now = some k)
    (he : findEntry st k = some e) :
    ((localLookup (Except.ok ()) ttl project kind ps fs now st).1.hit = true →
      now - e.storedAt < ttl kind ∧
        deriveInvDesc kind ps fs now = some e.invDesc) ∧
    ((ttl kind ≤ now - e.storedAt ∨
        deriveInvDesc kind ps fs now ≠ some e.invDesc) →
      (localLookup (Except.ok ()) ttl project kind ps fs now st).1.hit = false ∧
        findEntry (localLookup (Except.ok ()) ttl project kind ps fs now st).2 k
          = none) := by
  have hred : localLookup (Except.ok ()) ttl project kind ps fs now st =
      localLookupCore ttl project kind ps fs now st := rfl
  rw [hred]
  unfold localLookupCore
  simp only [hk, he]
  by_cases hexp : ttl kind ≤ now - e.storedAt
  · simp only [if_pos hexp]
    exact ⟨fun hhit => absurd hhit (by simp [missResult]),
      fun _ => ⟨rfl, findEntry_removeEntry st k⟩⟩
  · simp only [if_neg hexp]
    cases hd : deriveInvDesc kind ps fs now with
    | none =>
        exact ⟨fun hhit => absurd hhit (by simp [missResult]),
          fun _ => ⟨rfl, findEntry_removeEntry st k⟩⟩
    | some d =>
        by_cases hm : d = e.invDesc
        · simp only [if_pos hm]
          cases hdec : decompress e.blob with
          | ok p =>
              refine ⟨fun _ => ⟨Nat.lt_of_not_le hexp, by rw [hm]⟩, ?_⟩
              rintro (hcon | hcon)
              · exact absurd hcon hexp
              · exact absurd (by rw [hm]) hcon
          | error msg =>
              exact ⟨fun hhit => absurd hhit (by simp [missResult]),
                fun _ => ⟨rfl, findEntry_removeEntry st k⟩⟩
        · simp only [if_neg hm]
          exact ⟨fun hhit => absurd hhit (by simp [missResult]),
            fun _ => ⟨rfl, findEntry_removeEntry st k⟩⟩

/-- Witness for C4: a read_file entry stored at time 0 with TTL 10 looked
up at time 20 is expired: the lookup misses and deletes it. -/
theorem local_freshness_witness :
    (localLookup (Except.ok ()) (fun _ => 10) ("p") ("read_file")
        ([(("path"), ("/a.txt"))])
        ⟨fun p => if p = ("/a.txt") then some 5 else none, fun _ => none, none⟩
        20
        ([⟨⟨("p"), ("read_file"), ("/a.txt:5::")⟩, ("read_file"),
          [(("path"), ("/a.txt"))], [], 0, InvDesc.mtime 5, false, 1⟩])).1.hit
        = false ∧
      findEntry
        (localLookup (Except.ok ()) (fun _ => 10) ("p") ("read_file")
          ([(("path"), ("/a.txt"))])
          ⟨fun p => if p = ("/a.txt") then some 5 else none, fun _ => none, none⟩
          20
          ([⟨⟨("p"), ("read_file"), ("/a.txt:5::")⟩, ("read_file"),
            [(("path"), ("/a.txt"))], [], 0, InvDesc.mtime 5, false, 1⟩])).2
        ⟨("p"), ("read_file"), ("/a.txt:5::")⟩ = none :=
  (local_freshness (fun _ => 10) ("p") ("read_file")
    ([(("path"), ("/a.txt"))])
    ⟨fun p => if p = ("/a.txt") then some 5 else none, fun _ => none, none⟩
    20
    ([⟨⟨("p"), ("read_file"), ("/a.txt:5::")⟩, ("read_file"),
      [(("path"), ("/a.txt"))], [], 0, InvDesc.mtime 5, false, 1⟩])
    ⟨("p"), ("read_file"), ("/a.txt:5::")⟩
    ⟨⟨("p"), ("read_file"), ("/a.txt:5::")⟩, ("read_file"),
      [(("path"), ("/a.txt"))], [], 0, InvDesc.mtime 5, false, 1⟩
    (by rfl) (by rfl)).2 (Or.inl (by decide))

/-- The eviction loop always reaches the target size. -/
theorem totalSize_evictToTarget (target : Nat) (l : List CacheEntry) :
    totalSize (evictToTarget target l) ≤ target := by
  induction l with
  | nil => simp [evictToTarget, totalSize]
  | cons e rest ih =>
      rw [evictToTarget]
      by_cases h : totalSize (e :: rest) ≤ target
      · rwa [if_pos h]
      · rwa [if_neg h]

/-- The eviction loop deletes a front segment: the survivors are a suffix
of the oldest-first ordering. -/
theorem evictToTarget_drop (target : Nat) (l : List CacheEntry) :
    ∃ n, evictToTarget target l = l.drop n := by
  induction l with
  | nil => exact ⟨0, rfl⟩
  | cons e rest ih =>
      rw [evictToTarget]
      by_cases h : totalSize (e :: rest) ≤ target
      · exact ⟨0, by rw [if_pos h, List.drop_zero]⟩
      · obtain ⟨n, hn⟩ := ih
        exact ⟨n + 1, by rw [if_neg h]; simpa using hn⟩

/-- Claim C5: size-budget eviction: when a store finds the local total over
the configured ceiling, it deletes oldest-by-modification-time entries (a
front segment of the age-sorted permutation of the store) until usage is at
most 80% of budget, and the write happens on the pruned store. -/
theorem local_eviction (minSize budget : Nat) (project kind : String)
    (ps : Params) (fs : FsState) (now : Nat) (payload : List Nat)
    (st : List CacheEntry) (hover : budget < totalSize st) :
    enforceBudget budget st =
        evictToTarget (budget * 80 / 100) (sortByAge st) ∧
      totalSize (enforceBudget budget st) ≤ budget * 80 / 100 ∧
      (∃ n, enforceBudget budget st = (sortByAge st).drop n) ∧
      (sortByAge st).Perm st ∧
      (sortByAge st).Pairwise (fun a b => a.storedAt ≤ b.storedAt) ∧
      (∀ k, deriveKey project kind ps fs now = some k →
        ∀ d, deriveInvDesc kind ps fs now = some d →
          localStoreCore minSize budget project kind ps fs now payload st =
            (some k,
              ⟨k, kind, ps, (compress minSize payload).1, now, d,
                decide (minSize < payload.length),
                (compress minSize payload).2⟩ ::
                removeEntry (enforceBudget budget st) k)) := by
  have heb : enforceBudget budget st =
      evictToTarget (budget * 80 / 100) (sortByAge st) := by
    rw [enforceBudget, if_pos hover]
  refine ⟨heb, ?_, ?_, ?_, ?_, ?_⟩
  · rw [heb]; exact totalSize_evictToTarget _ _
  · rw [heb]; exact evictToTarget_drop _ _
  · exact List.mergeSort_perm st _
  · have hp := @List.sorted_mergeSort CacheEntry
      (fun a b => decide (a.storedAt ≤ b.storedAt))
      (fun a b c hab hbc => by
        simp only [decide_eq_true_eq] at hab hbc ⊢; omega)
      (fun a b => by simp [Nat.le_total]) st
    exact hp.imp (by intro a b hab; simpa using hab)
  · intro k hk d hd
    simp only [localStoreCore, hk, hd]

/-- Witness for C5: with budget 0 and one stored byte the pre-write
eviction brings usage to the 80% target (zero). -/
theorem local_eviction_witness :
    totalSize (enforceBudget 0
        ([⟨⟨("p"), ("read_file"), ("x")⟩, ("read_file"), [], [0], 0,
          InvDesc.mtime 0, false, 1⟩])) ≤ 0 * 80 / 100 :=
  (local_eviction 0 0 ("p") ("read_file") [] ⟨fun _ => none, fun _ => none, none⟩
    0 []
    ([⟨⟨("p"), ("read_file"), ("x")⟩, ("read_file"), [], [0], 0,
      InvDesc.mtime 0, false, 1⟩]) (by decide)).2.1

/-- Claim C7: router totality on unlisted kinds: an operation kind absent
from the fixed routing table always misses on lookup and is never written
by store, with no backend state touched. -/
theorem router_unlisted (cfg : CacheConfig) (env : Except String Unit)
    (project kind : String) (ps : Params) (fs : FsState) (now : Nat)
    (payload : List Nat) (cs : CacheState) (h : routeFor kind = none) :
    managerLookup cfg env project kind ps fs now cs = (missResult, cs) ∧
      managerStore cfg env project kind ps fs now payload cs = (none, cs) := by
  unfold managerLookup managerStore
  rw [h]
  exact ⟨rfl, rfl⟩

/-- Witness for C7: the kind unlisted_kind is not in the routing table; the
manager misses and stores nothing. -/
theorem router_unlisted_witness :
    managerLookup ⟨fun _ => 0, 0, 0, 0, fun _ => []⟩ (Except.ok ()) ("p")
        ("unlisted_kind") [] ⟨fun _ => none, fun _ => none, none⟩ 0
        ⟨[], [], []⟩ = (missResult, ⟨[], [], []⟩) ∧
      managerStore ⟨fun _ => 0, 0, 0, 0, fun _ => []⟩ (Except.ok ()) ("p")
        ("unlisted_kind") [] ⟨fun _ => none, fun _ => none, none⟩ 0 []
        ⟨[], [], []⟩ = (none, ⟨[], [], []⟩) :=
  router_unlisted ⟨fun _ => 0, 0, 0, 0, fun _ => []⟩ (Except.ok ()) ("p")
    ("unlisted_kind") [] ⟨fun _ => none, fun _ => none, none⟩ 0 []
    ⟨[], [], []⟩ (by rfl)

/-- A single backend lookup under a failing environment is a contained
miss with untouched state. -/
theorem backendLookup_error (cfg : CacheConfig) (b : BackendId)
    (project kind : String) (ps : Params) (fs : FsState) (now : Nat)
    (cs : CacheState) (err : String) :
    backendLookup cfg (Except.error err) b project kind ps fs now cs =
      (missResult, cs) := by
  cases b <;> rfl

/-- A single backend store under a failing environment is a contained
no-op. -/
theorem backendStore_error (cfg : CacheConfig) (b : BackendId)
    (project kind : String) (ps : Params) (fs : FsState) (now : Nat)
    (payload : List Nat) (cs : CacheState) (err : String) :
    backendStore cfg (Except.error err) b project kind ps fs now payload cs =
      (none, cs) := by
  cases b <;> rfl

/-- The router's lookup chain under a failing environment misses with
untouched state. -/
theorem tryBackends_error (cfg : CacheConfig) (project kind : String)
    (ps : Params) (fs : FsState) (now : Nat) (err : String) :
    ∀ (bs : List BackendId) (cs : CacheState),
      tryBackends cfg (Except.error err) project kind ps fs now bs cs =
        (missResult, cs)
  | [], _ => rfl
  | b :: rest, cs => by
      rw [tryBackends, backendLookup_error]
      simp only [missResult, Bool.false_eq_true, if_false]
      exact tryBackends_error cfg project kind ps fs now err rest cs

/-- The router's store fan-out under a failing environment writes nothing
and returns no key. -/
theorem storeBackends_error (cfg : CacheConfig) (project kind : String)
    (ps : Params) (fs : FsState) (now : Nat) (payload : List Nat)
    (err : String) :
    ∀ (bs : List BackendId) (cs : CacheState),
      storeBackends cfg (Except.error err) project kind ps fs now payload bs
        cs = (none, cs)
  | [], _ => rfl
  | b :: rest, cs => by
      rw [storeBackends, backendStore_error]
      rw [storeBackends_error cfg project kind ps fs now payload err rest cs]
      rfl

/-- Claim C1 (amended): every cache backend operation under a failing
environment returns normally: lookup degrades to a miss and store to a
silent no-op, at each individual backend and through the router and
manager. -/
theorem cache_fail_open (cfg : CacheConfig) (b : BackendId)
    (project kind : String) (ps : Params) (fs : FsState) (now : Nat)
    (payload : List Nat) (cs : CacheState) (err : String) :
    backendLookup cfg (Except.error err) b project kind ps fs now cs =
        (missResult, cs) ∧
      backendStore cfg (Except.error err) b project kind ps fs now payload cs
        = (none, cs) ∧
      managerLookup cfg (Except.error err) project kind ps fs now cs =
        (missResult, cs) ∧
      managerStore cfg (Except.error err) project kind ps fs now payload cs =
        (none, cs) := by
  refine ⟨backendLookup_error cfg b project kind ps fs now cs err,
    backendStore_error cfg b project kind ps fs now payload cs err, ?_, ?_⟩
  · unfold managerLookup
    cases routeFor kind with
    | none => rfl
    | some bs => exact tryBackends_error cfg project kind ps fs now err bs cs
  · unfold managerStore
    cases routeFor kind with
    | none => rfl
    | some bs =>
        exact storeBackends_error cfg project kind ps fs now payload err bs cs

end NumyApp
